import Mathlib

/-!
Verification of the TITOCuba run-preparation core against its specification.

The Python sources under `tito_utils/` are shallowly embedded below:
pure fragments become Lean functions, the filesystem becomes an explicit
map from paths to file sizes, timestamps become integers counting minutes,
and raster bands become lists of cells.  Every definition is written from
the source code; spec-side characterizations used for refinement proofs
are named with a `Spec` suffix.
-/

/-- The filesystem, as seen by the availability probes: a path either
names a file of a given size in bytes, or no file at all. -/
def FileSys : Type := String → Option Nat

/-- Model of `file_utils/file_handling.py`, `is_non_zero_file`: a path qualifies
iff it names an existing file whose size is strictly positive. -/
def is_non_zero_file (fs : FileSys) (fpath : String) : Bool :=
  match fs fpath with
  | some sz => decide (0 < sz)
  | none => false

/-- From `ef5_routines.py`, `find_available_states`: the state raster path
`f"{statesPath}{state}_{t.strftime('%Y%m%d_%H%M')}.tif"`.  The calendar
rendering of a timestamp is abstracted as an arbitrary `fmt` function. -/
def statePath (statesPath state : String) (fmt : Int → String) (t : Int) : String :=
  statesPath ++ state ++ "_" ++ fmt t ++ ".tif"

/-- The body of the inner `for state in modelStates` loop of
`find_available_states`: `foundAllStates` starts `True` and is cleared as
soon as one state raster is missing or empty, which is exactly `List.all`. -/
def allStatesOk (fs : FileSys) (statesPath : String) (modelStates : List String)
    (fmt : Int → String) (t : Int) : Bool :=
  modelStates.all (fun state => is_non_zero_file fs (statePath statesPath state fmt t))

/-- Model of `ef5_routines.py`, `find_available_states`: starting from
`systemStartTime`, while the current time is strictly above `failTime`
test whether every model state is present and non-empty; on failure step
back 30 minutes (`timedelta(minutes=30)`) and repeat.  Returns
`(foundAllStates, realSystemStartTime)`.  Timestamps are minutes as `Int`. -/
def find_available_states (fs : FileSys) (statesPath : String) (modelStates : List String)
    (fmt : Int → String) (systemStartTime failTime : Int) : Bool × Int :=
  if failTime < systemStartTime then
    if allStatesOk fs statesPath modelStates fmt systemStartTime then
      (true, systemStartTime)
    else
      find_available_states fs statesPath modelStates fmt (systemStartTime - 30) failTime
  else
    (false, systemStartTime)
termination_by (systemStartTime - failTime).toNat
decreasing_by
  simp_wf
  omega

/-- First-occurrence substring search over character lists, the model of
Python's literal `in` / `re` scanning: `findSub pat s` is the least index
at which `pat` occurs in `s`, if any. -/
def findSub (pat : List Char) : List Char → Option Nat
  | [] => if pat.isPrefixOf ([] : List Char) then some 0 else none
  | c :: rest =>
    if pat.isPrefixOf (c :: rest) then some 0
    else (findSub pat rest).map (· + 1)

/-- Python's substring containment test `pat in s`. -/
def hasSub (pat s : List Char) : Bool := (findSub pat s).isSome

/-- Python `re.sub` with a literal pattern: replace every non-overlapping
occurrence of `pat` by `rep`, scanning left to right and continuing after
the replaced text.  The fuel argument, set to the subject length by
`replaceAll`, only makes the recursion structural; every step consumes at
least one character, so the fuel never runs out. -/
def replaceAllFuel (pat rep : List Char) : Nat → List Char → List Char
  | _, [] => []
  | 0, s => s
  | fuel + 1, c :: rest =>
    if pat ≠ [] ∧ pat.isPrefixOf (c :: rest) then
      rep ++ replaceAllFuel pat rep fuel (rest.drop (pat.length - 1))
    else
      c :: replaceAllFuel pat rep fuel rest

def replaceAll (pat rep s : List Char) : List Char :=
  replaceAllFuel pat rep s.length s

/-- The nine substitution values of `write_control_file`
(`ef5_routines.py`): paths verbatim, timestamps already rendered through
`strftime('%Y%m%d%H%M')`, plus the forecast timestep and model name. -/
structure ControlSubs where
  outputPath : List Char
  statesPath : List Char
  timeBegin : List Char
  timeWarmEnd : List Char
  timeState : List Char
  timeEnd : List Char
  timeBeginLR : List Char
  timeStepLR : List Char
  systemModel : List Char

/-- The fixed placeholder table of `write_control_file`, in the exact
order the nine `re.sub` calls are applied to each template line. -/
def controlPatterns (v : ControlSubs) : List (List Char × List Char) :=
  [("{OUTPUTPATH}".data, v.outputPath),
   ("{STATESPATH}".data, v.statesPath),
   ("{TIMEBEGIN}".data, v.timeBegin),
   ("{TIMEWARMEND}".data, v.timeWarmEnd),
   ("{TIMESTATE}".data, v.timeState),
   ("{TIMEEND}".data, v.timeEnd),
   ("{TIMEBEGINLR}".data, v.timeBeginLR),
   ("{TIMESTEPLR}".data, v.timeStepLR),
   ("{SYSTEMMODEL}".data, v.systemModel)]

/-- The placeholder-substitution stage of `write_control_file`: the nine
fixed `re.sub` calls applied in sequence to one template line. -/
def substLine (v : ControlSubs) (line : List Char) : List Char :=
  (controlPatterns v).foldl (fun l pr => replaceAll pr.1 pr.2 l) line

/-- The QPE/QPF task-directive toggle of `write_control_file`: in LR
(forecast) mode the QPE task line is commented and the QPF task line
uncommented, otherwise the QPF task line is commented. -/
def taskToggle (lrRun : Bool) (line : List Char) : List Char :=
  if hasSub "task=Simulation_QPE".data line then
    if lrRun then "#task=Simulation_QPE\n".data else line
  else if hasSub "task=Simulation_QPF".data line then
    if lrRun then "task=Simulation_QPF\n".data else "#task=Simulation_QPF\n".data
  else line

/-- Python `str.lstrip()` on a line. -/
def lstripLine (line : List Char) : List Char := line.dropWhile Char.isWhitespace

/-- The warm-up-end toggle of `write_control_file`: when valid states
were found, a line containing `TIME_WARMEND=` whose left-stripped form
does not already start with `#` gets `#` prepended. -/
def warmToggle (statesFound : Bool) (line : List Char) : List Char :=
  if statesFound && hasSub "TIME_WARMEND=".data line then
    if (lstripLine line).head? = some '#' then line else '#' :: line
  else line

/-- One full iteration of the per-line loop of `write_control_file`:
substitutions, then the task toggle, then the warm-up-end toggle. -/
def processControlLine (v : ControlSubs) (lrRun statesFound : Bool)
    (line : List Char) : List Char :=
  warmToggle statesFound (taskToggle lrRun (substLine v line))

/-- Model of `write_control_file` on the whole template, line by line. -/
def write_control_file (v : ControlSubs) (lrRun statesFound : Bool)
    (template : List (List Char)) : List (List Char) :=
  template.map (processControlLine v lrRun statesFound)

/-- The first non-whitespace character of a line, i.e. the head of its
left-stripped form; `some '#'` means the line is commented. -/
def firstNonWs (line : List Char) : Option Char := (lstripLine line).head?

/-- From `highres_utils.py`: the literal start marker of the topology block. -/
def startMarker : List Char := "#---Start Gauge-Basin Block".data

/-- From `highres_utils.py`: the literal end marker of the topology block. -/
def endMarker : List Char := "#---End Gauge-Basin Block".data

/-- Model of `GAUGE_BLOCK_PATTERN.sub(block_text, template, count=1)`: the
non-greedy DOTALL regex matches from the first start-marker occurrence
through the first end marker after it; only the first match is replaced.
If the pattern does not match (no start marker, or no end marker after
the first start marker), the template is returned unchanged. -/
def gaugeBlockSub (blockText template : List Char) : List Char :=
  match findSub startMarker template with
  | none => template
  | some i =>
    match findSub endMarker (template.drop (i + startMarker.length)) with
    | none => template
    | some j =>
      template.take i ++ blockText ++
        template.drop (i + startMarker.length + j + endMarker.length)

/-- Model of `highres_utils.py`, `_update_template_block`: raises `ValueError`
when the start marker is absent from the template, otherwise writes back
the template with `GAUGE_BLOCK_PATTERN` substituted once. -/
def update_template_block (template blockText : List Char) : Except String (List Char) :=
  if hasSub startMarker template then .ok (gaugeBlockSub blockText template)
  else .error "Gauge-Basin marker not found in high-res template"

/-- Length of a match of the regex `\[Gauge\s+\d+\]`
(`highres_utils.py`, `_reindex_gauge_line`) anchored at the head of `s`:
the literal `[Gauge`, one or more whitespace characters, one or more
digits, and a closing bracket. -/
def gaugeTagMatchLen (s : List Char) : Option Nat :=
  if "[Gauge".data.isPrefixOf s then
    let rest := s.drop 6
    let ws := rest.takeWhile Char.isWhitespace
    if ws.length = 0 then none
    else
      let rest2 := rest.drop ws.length
      let ds := rest2.takeWhile Char.isDigit
      if ds.length = 0 then none
      else
        match rest2.drop ds.length with
        | ']' :: _ => some (6 + ws.length + ds.length + 1)
        | _ => none
  else none

/-- Model of `_reindex_gauge_line`: replace the first `\[Gauge\s+\d+\]` match in
the raw gauge line by `[Gauge {new_index}]` (`re.sub` with `count=1`). -/
def subGaugeTag (newIdx : Nat) : List Char → List Char
  | [] => []
  | c :: rest =>
    match gaugeTagMatchLen (c :: rest) with
    | some len =>
      "[Gauge ".data ++ (Nat.repr newIdx).data ++ "]".data ++ (c :: rest).drop len
    | none => c :: subGaugeTag newIdx rest

/-- Python `sep.join(parts)` over character lists. -/
def sepJoin (sep : List Char) : List (List Char) → List Char
  | [] => []
  | [l] => l
  | l :: rest => l ++ sep ++ sepJoin sep rest

/-- Python `"\n".join(lines)` over character lists. -/
def joinNl (lines : List (List Char)) : List Char := sepJoin ['\n'] lines

/-- The `# gauge={prefix}_{gid} ...` traceability comment body of
`_render_block_text`, joined over the full requested gauge-id list. -/
def gaugeNamesLine (pfx : List Char) (gaugeIds : List Int) : List Char :=
  sepJoin [' ']
    (gaugeIds.map (fun gid => "gauge=".data ++ pfx ++ "_".data ++ gid.repr.data))

/-- The `[Basin 0]` membership line of `_render_block_text`:
`gauge=0 gauge=1 ...` over `range(len(reindexed_lines))`. -/
def gaugeIndicesLine (n : Nat) : List Char :=
  sepJoin [' '] ((List.range n).map (fun i => "gauge=".data ++ (Nat.repr i).data))

/-- Model of `highres_utils.py`, `_render_block_text`: build the topology block.
Gauge ids are walked with `enumerate`; ids absent from the lookup are
skipped (with a warning) while the enumerate counter still advances; the
surviving raw lines are re-tagged with their enumerate index.  When at
least one line survives, the basin aggregate, the traceability comment
(emitted whenever the requested id list is non-empty) and the local-index
membership line are appended between the two literal markers. -/
def render_block_text (gaugeIds : List Int) (lookup : Int → Option (List Char))
    (pfx : List Char) : List Char :=
  let reindexed := gaugeIds.enum.filterMap (fun p => (lookup p.2).map (subGaugeTag p.1))
  let middle : List (List Char) :=
    if reindexed.isEmpty then []
    else
      reindexed ++ [[], "[Basin 0]".data] ++
        (if gaugeIds.isEmpty then [] else ["# ".data ++ gaugeNamesLine pfx gaugeIds]) ++
        [gaugeIndicesLine reindexed.length, []]
  joinNl ([startMarker, []] ++ middle ++ [endMarker, []])

/-- A timestamp as the DA code sees it: a timezone-naive wall-clock value
(minutes, as `Int`) plus an optional timezone tag; `tz_localize(None)`
keeps the wall-clock value and drops the tag. -/
structure PDateTime where
  naive : Int
  tz : Option Int
deriving DecidableEq

/-- Model of `pd.Timestamp(t).tz_localize(None) if pd.Timestamp(t).tz else pd.Timestamp(t)`:
either way the comparison uses the timezone-stripped wall-clock value. -/
def stripTz (d : PDateTime) : Int := d.naive

/-- A two-column observation CSV as seen through the three parse attempts
of the DA fallback chain (`%m/%d/%Y %H:%M`, then `%d/%m/%Y %H:%M`, then
unconstrained automatic parsing): each attempt either raises (`none`) or
yields the `(datetime, value)` rows in file order.  A file whose
`read_csv` itself raises is one on which all three attempts raise.
Datetimes are minutes as `Int`; values are opaque payloads, also `Int`. -/
structure CsvFile where
  parse1 : Option (List (Int × Int))
  parse2 : Option (List (Int × Int))
  parseAuto : Option (List (Int × Int))
deriving DecidableEq

/-- The try/except fallback chain of `da_utils.py`: first successful
parse attempt wins; `none` when every attempt raises. -/
def parseChain (f : CsvFile) : Option (List (Int × Int)) :=
  match f.parse1 with
  | some rows => some rows
  | none =>
    match f.parse2 with
    | some rows => some rows
    | none => f.parseAuto

/-- Observation CSV store: maps a path to the file found there, if any. -/
def CsvStore : Type := String → Option CsvFile

/-- Python `os.path.join(dir, f"{reservoir_id}_Vertimiento_Serie.csv")`. -/
def daFilePath (dir rid : String) : String := dir ++ "/" ++ rid ++ "_Vertimiento_Serie.csv"

/-- Model of `da_utils.py`, `check_manual_da_availability`: the manual series is
available iff its file exists, some parse attempt of the fallback chain
succeeds, and the parsed datetime column's min/max enclose the
timezone-stripped simulation window.  An empty parsed column yields `NaT`
min/max, whose comparisons are false, hence unavailable. -/
def check_manual_da_availability (fs : CsvStore) (rid daManualPath : String)
    (startTime endTime : PDateTime) : Bool × Option String :=
  let fp := daFilePath daManualPath rid
  match fs fp with
  | none => (false, none)
  | some f =>
    match parseChain f with
    | none => (false, none)
    | some rows =>
      match (rows.map Prod.fst).min?, (rows.map Prod.fst).max? with
      | some dataStart, some dataEnd =>
        if dataStart ≤ stripTz startTime ∧ stripTz endTime ≤ dataEnd then (true, some fp)
        else (false, none)
      | _, _ => (false, none)

/-- Model of `da_utils.py`, `prepare_da_paths`: per reservoir, the manual path
when the manual series is available, else the climatological path; built
in reservoir input order. -/
def prepare_da_paths (fs : CsvStore) (reservoirs : List String)
    (daManualPath daClimatologyPath : String) (startTime endTime : PDateTime) :
    List (String × String) :=
  reservoirs.foldl
    (fun acc rid =>
      if (check_manual_da_availability fs rid daManualPath startTime endTime).1 then
        acc ++ [(rid, daFilePath daManualPath rid)]
      else
        acc ++ [(rid, daFilePath daClimatologyPath rid)])
    []

/-- The window filter `(df['datetime'] >= start_ts) & (df['datetime'] <= end_ts)`. -/
def rowsInWindow (s e : Int) (rows : List (Int × Int)) : List (Int × Int) :=
  rows.filter (fun r => decide (s ≤ r.1) && decide (r.1 ≤ e))

/-- One iteration of the `for reservoir_id in reservoirs` loop of
`create_consolidated_da_csv`: skip a reservoir whose selected file is
missing or whose processing raises; otherwise append its window-filtered
rows, each tagged with the reservoir id, to `all_data`. -/
def consolidatedStep (fs : CsvStore) (daPathMap : String → String)
    (startTime endTime : PDateTime)
    (allData : List (List (String × Int × Int))) (rid : String) :
    List (List (String × Int × Int)) :=
  match fs (daPathMap rid) with
  | none => allData
  | some f =>
    match parseChain f with
    | none => allData
    | some rows =>
      allData ++ [(rowsInWindow (stripTz startTime) (stripTz endTime) rows).map
        (fun r => (rid, r))]

/-- Model of `da_utils.py`, `create_consolidated_da_csv`: walk the reservoirs in
input order accumulating `all_data`, then concatenate (`pd.concat`).
(The output-side timestamp reformatting is a rendering of the datetime
and is not modelled.) -/
def create_consolidated_da_csv (fs : CsvStore) (reservoirs : List String)
    (daPathMap : String → String) (startTime endTime : PDateTime) :
    List (String × Int × Int) :=
  (reservoirs.foldl (consolidatedStep fs daPathMap startTime endTime) []).flatten

/-- Spec-side characterization of one reservoir's contribution to the
consolidated table: its selected series' rows with timestamp in
`[start, end]` inclusive, in source order, tagged with the reservoir id;
no rows when the file is missing or unparsable. -/
def selectedRowsSpec (fs : CsvStore) (daPathMap : String → String)
    (startTime endTime : PDateTime) (rid : String) : List (String × Int × Int) :=
  match (fs (daPathMap rid)).bind parseChain with
  | none => []
  | some rows =>
    (rows.filter (fun r => stripTz startTime ≤ r.1 ∧ r.1 ≤ stripTz endTime)).map
      (fun r => (rid, r))

/-- One cell of the simulated-output raster band: the no-data mask flag,
and the stored number when it is finite (`none` models NaN or ±Inf, on
which `np.isfinite` is false). -/
structure RasterCell where
  masked : Bool
  finiteVal : Option ℚ
deriving DecidableEq

/-- Model of `maxunitq_band.filled(np.nan)`: a masked cell reads as NaN. -/
def cellFilled (c : RasterCell) : Option ℚ :=
  if c.masked then none else c.finiteVal

/-- One conjunct chain of `_extract_hot_gauges`:
`valid_mask & np.isfinite(values) & (values >= threshold)` for one cell. -/
def cellQualifies (threshold : ℚ) (c : RasterCell) : Bool :=
  !c.masked &&
    (match cellFilled c with
     | some v => decide (threshold ≤ v)
     | none => false)

/-- Python's builtin `round`: round half to even. -/
def pyRound (q : ℚ) : Int :=
  if q - ⌊q⌋ < 1/2 then ⌊q⌋
  else if (1 : ℚ)/2 < q - ⌊q⌋ then ⌊q⌋ + 1
  else if Even ⌊q⌋ then ⌊q⌋ else ⌊q⌋ + 1

/-- Model of `highres_utils.py`, `_collect_gauges_from_mask`: with no requested
cells, return immediately; otherwise union the mask values read under
every requested cell's footprint (the mask raster is abstracted as the
list of values each cell's footprint yields), round them, keep the
non-negative ones as gauge ids, and return the set sorted ascending. -/
def collect_gauges_from_mask (mask : Nat → List ℚ) (cells : List Nat) : List Int :=
  if cells.isEmpty then []
  else
    let ids := ((cells.flatMap mask).map pyRound).filter (fun i => decide (0 ≤ i))
    List.insertionSort (· ≤ ·) ids.dedup

/-- Model of `highres_utils.py`, `_extract_hot_gauges`: indices of band cells that
are valid, finite and at or above threshold; empty selection short-cuts
to the empty list without touching the mask raster. -/
def extract_hot_gauges (band : List RasterCell) (mask : Nat → List ℚ)
    (threshold : ℚ) : List Int :=
  let hot := (band.enum.filter (fun p => cellQualifies threshold p.2)).map Prod.fst
  if hot.isEmpty then [] else collect_gauges_from_mask mask hot

theorem find_available_states_eq (fs : FileSys) (sp : String) (ms : List String)
    (fmt : Int → String) (t F : Int) :
    find_available_states fs sp ms fmt t F =
      if F < t then
        (if allStatesOk fs sp ms fmt t then (true, t)
         else find_available_states fs sp ms fmt (t - 30) F)
      else (false, t) := by
  rw [find_available_states]

/-- C1: if some backtracked timestamp `T - 30*k` lies strictly above the
floor `F` and has every model state present as a non-empty raster file,
while every later tested timestamp `T - 30*j` (`j < k`) is missing at
least one state, then `find_available_states` returns `found = true` and
resolves exactly to `T - 30*k`; with `k = 0` this is the zero-backtracking
case `resolvedTimestamp = T`. -/
theorem c1_find_states_success (fs : FileSys) (sp : String) (ms : List String)
    (fmt : Int → String) (T F : Int) (k : Nat)
    (hfloor : F < T - 30 * (k : Int))
    (hall : allStatesOk fs sp ms fmt (T - 30 * (k : Int)) = true)
    (hlater : ∀ j : Nat, j < k → allStatesOk fs sp ms fmt (T - 30 * (j : Int)) = false) :
    find_available_states fs sp ms fmt T F = (true, T - 30 * (k : Int)) := by
  induction k generalizing T with
  | zero =>
      have hT : T - 30 * ((0 : Nat) : Int) = T := by push_cast; ring
      rw [hT] at hfloor hall ⊢
      rw [find_available_states_eq, if_pos hfloor, hall]
      simp
  | succ k ih =>
      have h0 : allStatesOk fs sp ms fmt T = false := by
        have h := hlater 0 (Nat.succ_pos k)
        simpa using h
      have hF : F < T := by push_cast at hfloor; omega
      rw [find_available_states_eq, if_pos hF, h0]
      simp only [Bool.false_eq_true, if_false]
      have heq : T - 30 * ((k : Int) + 1) = T - 30 - 30 * (k : Int) := by ring
      have hall' : allStatesOk fs sp ms fmt (T - 30 - 30 * (k : Int)) = true := by
        rw [← heq]; push_cast at hall ⊢; exact hall
      have hfloor' : F < T - 30 - 30 * (k : Int) := by push_cast at hfloor; omega
      have hlater' : ∀ j : Nat, j < k →
          allStatesOk fs sp ms fmt (T - 30 - 30 * (j : Int)) = false := by
        intro j hj
        have h := hlater (j + 1) (by omega)
        have heqj : T - 30 * (((j : Nat) + 1 : Nat) : Int) = T - 30 - 30 * (j : Int) := by
          push_cast; ring
        rw [heqj] at h
        exact h
      have := ih (T - 30) hfloor' hall' hlater'
      rw [this]
      congr 1
      push_cast
      ring

/-- Witness for C1 at a concrete input: one state variable, the desired
time `60` misses the state but time `30 = 60 - 30*1` has it, floor `0`. -/
theorem c1_find_states_success_witness :
    find_available_states
      (fun p => if p = "st/a_t30.tif" then some 7 else none) "st/" ["a"]
      (fun t => "t" ++ t.repr) 60 0 = (true, 60 - 30 * ((1 : Nat) : Int)) := by
  apply c1_find_states_success
  · decide
  · decide
  · intro j hj
    interval_cases j
    decide

/-- C2 counterexample: with no state file ever present, desired start
`T = 30` and floor `F = 0`, the search stops unsuccessfully but returns
`resolvedTimestamp = 0` (the first backtracked time at or below the
floor), not the desired start `30` as the claim states. -/
theorem c2_counterexample :
    find_available_states (fun _ => none) "st/" ["a"] (fun t => "t" ++ t.repr) 30 0
      = (false, 0) ∧ (0 : Int) ≠ 30 := by
  constructor
  · rw [find_available_states_eq]
    norm_num [allStatesOk, is_non_zero_file]
    rw [find_available_states_eq]
    norm_num
  · decide

/-- C2 amended: if every backtracked timestamp strictly above the floor
misses at least one state, `find_available_states` returns `found = false`
with `resolvedTimestamp` equal to the first timestamp of the form
`T - 30*K` that is at or below the floor `F` — not the desired start `T`
(the two coincide only when `T ≤ F` already, i.e. `K = 0`). -/
theorem c2_amended_floor_crossing (fs : FileSys) (sp : String) (ms : List String)
    (fmt : Int → String) (T F : Int) (K : Nat)
    (hnone : ∀ k : Nat, F < T - 30 * (k : Int) → allStatesOk fs sp ms fmt (T - 30 * (k : Int)) = false)
    (hcross : T - 30 * (K : Int) ≤ F)
    (habove : ∀ j : Nat, j < K → F < T - 30 * (j : Int)) :
    find_available_states fs sp ms fmt T F = (false, T - 30 * (K : Int)) := by
  induction K generalizing T with
  | zero =>
      have hT : T - 30 * ((0 : Nat) : Int) = T := by push_cast; ring
      rw [hT] at hcross ⊢
      rw [find_available_states_eq, if_neg (by omega)]
  | succ K ih =>
      have hF : F < T := by
        have h := habove 0 (Nat.succ_pos K)
        simpa using h
      have h0 : allStatesOk fs sp ms fmt T = false := by
        have h := hnone 0 (by simpa using hF)
        simpa using h
      rw [find_available_states_eq, if_pos hF, h0]
      simp only [Bool.false_eq_true, if_false]
      have hnone' : ∀ k : Nat, F < T - 30 - 30 * (k : Int) →
          allStatesOk fs sp ms fmt (T - 30 - 30 * (k : Int)) = false := by
        intro k hk
        have heqk : T - 30 * (((k : Nat) + 1 : Nat) : Int) = T - 30 - 30 * (k : Int) := by
          push_cast; ring
        have h := hnone (k + 1) (by rw [heqk]; exact hk)
        rw [heqk] at h
        exact h
      have hcross' : T - 30 - 30 * (K : Int) ≤ F := by
        have heqK : T - 30 * (((K : Nat) + 1 : Nat) : Int) = T - 30 - 30 * (K : Int) := by
          push_cast; ring
        rw [heqK] at hcross
        exact hcross
      have habove' : ∀ j : Nat, j < K → F < T - 30 - 30 * (j : Int) := by
        intro j hj
        have heqj : T - 30 * (((j : Nat) + 1 : Nat) : Int) = T - 30 - 30 * (j : Int) := by
          push_cast; ring
        have h := habove (j + 1) (by omega)
        rw [heqj] at h
        exact h
      rw [ih (T - 30) hnone' hcross' habove']
      congr 1
      push_cast
      ring

/-- Witness for the amended C2 at a concrete input: no files, desired
start `30`, floor `0`, so the loop crosses the floor after `K = 1` step
and resolves to `30 - 30*1 = 0`. -/
theorem c2_amended_floor_crossing_witness :
    find_available_states (fun _ => none) "st/" ["b"] (fun t => "t" ++ t.repr) 30 0
      = (false, 30 - 30 * ((1 : Nat) : Int)) := by
  apply c2_amended_floor_crossing
  · intro k _
    simp [allStatesOk, is_non_zero_file]
  · decide
  · intro j hj
    interval_cases j
    decide

theorem isPrefixOf_append_self (p r : List Char) : p.isPrefixOf (p ++ r) = true := by
  induction p with
  | nil => simp [List.isPrefixOf]
  | cons a p ih => simp [List.isPrefixOf, ih]

theorem hasSub_cons (pat : List Char) (c : Char) (s : List Char)
    (h : hasSub pat s = true) : hasSub pat (c :: s) = true := by
  unfold hasSub at h ⊢
  rcases Option.isSome_iff_exists.mp h with ⟨i, hi⟩
  unfold findSub
  rw [hi]
  split
  · rfl
  · rfl

theorem hasSub_decomp (pat l r : List Char) : hasSub pat (l ++ pat ++ r) = true := by
  induction l with
  | nil =>
      simp only [List.nil_append]
      cases pat with
      | nil => cases r <;> simp [hasSub, findSub, List.isPrefixOf]
      | cons a p =>
          have hp : (a :: p).isPrefixOf ((a :: p) ++ r) = true := isPrefixOf_append_self _ _
          unfold hasSub
          rw [List.cons_append] at hp ⊢
          unfold findSub
          rw [hp]
          rfl
  | cons a l ih =>
      have : (a :: l) ++ pat ++ r = a :: (l ++ pat ++ r) := by simp
      rw [this]
      exact hasSub_cons _ _ _ ih

theorem hasSub_cons_false (pat : List Char) (c : Char) (rest : List Char)
    (h : hasSub pat (c :: rest) = false) :
    pat.isPrefixOf (c :: rest) = false ∧ hasSub pat rest = false := by
  unfold hasSub findSub at h
  cases hp : pat.isPrefixOf (c :: rest) with
  | true => rw [hp] at h; simp at h
  | false =>
      rw [hp] at h
      simp only [Bool.false_eq_true, if_false] at h
      refine ⟨rfl, ?_⟩
      unfold hasSub
      cases hf : findSub pat rest with
      | none => rfl
      | some i => rw [hf] at h; simp at h

theorem replaceAllFuel_id (pat rep : List Char) :
    ∀ (s : List Char) (fuel : Nat), hasSub pat s = false →
      replaceAllFuel pat rep fuel s = s := by
  intro s
  induction s with
  | nil => intro fuel _; cases fuel <;> rfl
  | cons c rest ih =>
      intro fuel h
      obtain ⟨hp, hr⟩ := hasSub_cons_false pat c rest h
      cases fuel with
      | zero => rfl
      | succ fuel =>
          unfold replaceAllFuel
          rw [if_neg]
          · rw [ih fuel hr]
          · intro hcon
            exact absurd hcon.2 (by simp [hp])

theorem replaceAll_id (pat rep s : List Char) (h : hasSub pat s = false) :
    replaceAll pat rep s = s :=
  replaceAllFuel_id pat rep s s.length h

theorem firstNonWs_hash (l : List Char) : firstNonWs ('#' :: l) = some '#' := by
  have hc : Char.isWhitespace '#' = false := by decide
  simp [firstNonWs, lstripLine, List.dropWhile_cons, hc]

/-- C7: with `statesFound = true`, every rendered control-file line that
contains the `TIME_WARMEND=` directive is in commented form (its first
non-whitespace character is `#`), and the warm-up-end toggle never
comments an already-commented line a second time. -/
theorem c7_warmend_always_commented (v : ControlSubs) (lrRun : Bool) (line : List Char) :
    (hasSub "TIME_WARMEND=".data (processControlLine v lrRun true line) = true →
      firstNonWs (processControlLine v lrRun true line) = some '#') ∧
    (∀ l : List Char, firstNonWs l = some '#' → warmToggle true l = l) := by
  have toggleFix : ∀ l : List Char, firstNonWs l = some '#' → warmToggle true l = l := by
    intro l hl
    unfold warmToggle
    cases hh : hasSub "TIME_WARMEND=".data l with
    | false => simp [hh]
    | true =>
        unfold firstNonWs at hl
        simp [hh, hl]
  constructor
  · intro h
    unfold processControlLine at h ⊢
    generalize taskToggle lrRun (substLine v line) = l at h ⊢
    cases hh : hasSub "TIME_WARMEND=".data l with
    | false =>
        have hw : warmToggle true l = l := by unfold warmToggle; simp [hh]
        rw [hw] at h
        exact absurd h (by simp [hh])
    | true =>
        unfold warmToggle
        simp only [hh, Bool.and_self, if_true]
        by_cases hc : (lstripLine l).head? = some '#'
        · rw [if_pos hc]
          exact hc
        · rw [if_neg hc]
          exact firstNonWs_hash l
  · exact toggleFix

/-- Witness for C7: a concrete warm-up-end template line is rendered in
commented form when states were found. -/
theorem c7_warmend_always_commented_witness :
    firstNonWs (processControlLine
      ⟨"out/".data, "states/".data, "202306090000".data, "202306090600".data,
       "202306091200".data, "202306100000".data, "202306090600".data,
       "60".data, "crest".data⟩ false true "TIME_WARMEND={TIMEWARMEND}\n".data)
      = some '#' := by
  apply (c7_warmend_always_commented _ false _).1
  decide

/-- C8 counterexample: rendering a template line holding the unknown
placeholder token `{FOO}` completes with the token left verbatim in the
output (the known token `{TIMEBEGIN}` is substituted), with no error
surfaced — refuting the claim that rendering never completes while an
unreplaced placeholder remains. -/
theorem c8_counterexample :
    processControlLine
      ⟨"out/".data, "states/".data, "202306090000".data, "202306090600".data,
       "202306091200".data, "202306100000".data, "202306090600".data,
       "60".data, "crest".data⟩ false false "TIME_BEGIN={TIMEBEGIN} {FOO}\n".data
      = "TIME_BEGIN=202306090000 {FOO}\n".data ∧
    hasSub "{FOO}".data "TIME_BEGIN=202306090000 {FOO}\n".data = true := by
  constructor
  · decide
  · decide

/-- C8 amended: `write_control_file` substitutes exactly the nine fixed
placeholder tokens; a template line containing none of them passes the
substitution stage unchanged, so an unknown placeholder token is left
verbatim in the rendered document and no error is surfaced. -/
theorem c8_amended_unknown_tokens_kept (v : ControlSubs) (line : List Char)
    (h : ∀ pr ∈ controlPatterns v, hasSub pr.1 line = false) :
    substLine v line = line := by
  have h1 : hasSub "{OUTPUTPATH}".data line = false :=
    h ("{OUTPUTPATH}".data, v.outputPath) (by simp [controlPatterns])
  have h2 : hasSub "{STATESPATH}".data line = false :=
    h ("{STATESPATH}".data, v.statesPath) (by simp [controlPatterns])
  have h3 : hasSub "{TIMEBEGIN}".data line = false :=
    h ("{TIMEBEGIN}".data, v.timeBegin) (by simp [controlPatterns])
  have h4 : hasSub "{TIMEWARMEND}".data line = false :=
    h ("{TIMEWARMEND}".data, v.timeWarmEnd) (by simp [controlPatterns])
  have h5 : hasSub "{TIMESTATE}".data line = false :=
    h ("{TIMESTATE}".data, v.timeState) (by simp [controlPatterns])
  have h6 : hasSub "{TIMEEND}".data line = false :=
    h ("{TIMEEND}".data, v.timeEnd) (by simp [controlPatterns])
  have h7 : hasSub "{TIMEBEGINLR}".data line = false :=
    h ("{TIMEBEGINLR}".data, v.timeBeginLR) (by simp [controlPatterns])
  have h8 : hasSub "{TIMESTEPLR}".data line = false :=
    h ("{TIMESTEPLR}".data, v.timeStepLR) (by simp [controlPatterns])
  have h9 : hasSub "{SYSTEMMODEL}".data line = false :=
    h ("{SYSTEMMODEL}".data, v.systemModel) (by simp [controlPatterns])
  simp only [substLine, controlPatterns, List.foldl_cons, List.foldl_nil]
  rw [replaceAll_id _ _ _ h1, replaceAll_id _ _ _ h2, replaceAll_id _ _ _ h3,
      replaceAll_id _ _ _ h4, replaceAll_id _ _ _ h5, replaceAll_id _ _ _ h6,
      replaceAll_id _ _ _ h7, replaceAll_id _ _ _ h8, replaceAll_id _ _ _ h9]

/-- Witness for the amended C8: a line holding only the unknown token
`{FOO}` is passed through the substitution stage verbatim. -/
theorem c8_amended_unknown_tokens_kept_witness :
    substLine
      ⟨"out/".data, "states/".data, "202306090000".data, "202306090600".data,
       "202306091200".data, "202306100000".data, "202306090600".data,
       "60".data, "crest".data⟩ "{FOO}\n".data = "{FOO}\n".data := by
  apply c8_amended_unknown_tokens_kept
  decide

/-- C6 counterexample: a template holding the start marker but not the
end marker is not a fatal error — `update_template_block` completes
without raising and writes the template back unchanged (the regex finds
no block to replace), refuting the claim that missing either marker is
surfaced as a fatal configuration error. -/
theorem c6_counterexample :
    hasSub endMarker "#---Start Gauge-Basin Block\nabc".data = false ∧
    update_template_block "#---Start Gauge-Basin Block\nabc".data "NEW".data
      = .ok "#---Start Gauge-Basin Block\nabc".data := by
  constructor
  · decide
  · rfl

theorem gaugeBlockSub_no_end (blockText template : List Char) (i : Nat)
    (hi : findSub startMarker template = some i)
    (hj : findSub endMarker (template.drop (i + startMarker.length)) = none) :
    gaugeBlockSub blockText template = template := by
  unfold gaugeBlockSub
  split
  · rfl
  · rename_i i' h
    rw [h] at hi
    injection hi with hi'
    subst hi'
    split
    · rfl
    · rename_i j' h2
      rw [h2] at hj
      cases hj

theorem gaugeBlockSub_found (blockText template : List Char) (i j : Nat)
    (hi : findSub startMarker template = some i)
    (hj : findSub endMarker (template.drop (i + startMarker.length)) = some j) :
    gaugeBlockSub blockText template
      = template.take i ++ blockText
          ++ template.drop (i + startMarker.length + j + endMarker.length) := by
  unfold gaugeBlockSub
  split
  · rename_i h
    rw [h] at hi
    cases hi
  · rename_i i' h
    rw [h] at hi
    injection hi with hi'
    subst hi'
    split
    · rename_i h2
      rw [h2] at hj
      cases hj
    · rename_i j' h2
      rw [h2] at hj
      injection hj with hj'
      subst hj'
      rfl

/-- C6 amended: only the start marker is checked — rewriting raises a
fatal `ValueError` exactly when the start marker is absent; when the
start marker is present but no end marker follows its first occurrence,
the template is written back unchanged (a silent no-op, not an error);
when both are present, exactly the first delimited block (both markers
inclusive) is replaced wholesale by the rendered block. -/
theorem c6_amended_marker_handling (template blockText : List Char) :
    (hasSub startMarker template = false →
      update_template_block template blockText
        = .error "Gauge-Basin marker not found in high-res template") ∧
    (∀ i : Nat, findSub startMarker template = some i →
      findSub endMarker (template.drop (i + startMarker.length)) = none →
      update_template_block template blockText = .ok template) ∧
    (∀ i j : Nat, findSub startMarker template = some i →
      findSub endMarker (template.drop (i + startMarker.length)) = some j →
      update_template_block template blockText
        = .ok (template.take i ++ blockText ++
            template.drop (i + startMarker.length + j + endMarker.length))) := by
  refine ⟨?_, ?_, ?_⟩
  · intro h
    unfold update_template_block
    rw [h]
    rfl
  · intro i hi hj
    unfold update_template_block
    have hh : hasSub startMarker template = true := by unfold hasSub; rw [hi]; rfl
    rw [hh]
    simp only [if_true]
    rw [gaugeBlockSub_no_end blockText template i hi hj]
  · intro i j hi hj
    unfold update_template_block
    have hh : hasSub startMarker template = true := by unfold hasSub; rw [hi]; rfl
    rw [hh]
    simp only [if_true]
    rw [gaugeBlockSub_found blockText template i j hi hj]

/-- Witness for the amended C6 at a concrete template containing both
markers: the first delimited block is replaced wholesale. -/
theorem c6_amended_marker_handling_witness :
    update_template_block
      ("#---Start Gauge-Basin Block\nX\n#---End Gauge-Basin Block\ntail".data)
      "NEW".data
      = .ok (("#---Start Gauge-Basin Block\nX\n#---End Gauge-Basin Block\ntail".data).take 0
          ++ "NEW".data
          ++ ("#---Start Gauge-Basin Block\nX\n#---End Gauge-Basin Block\ntail".data).drop
                (0 + startMarker.length + 3 + endMarker.length)) := by
  apply (c6_amended_marker_handling _ _).2.2 0 3
  · decide
  · decide

theorem sepJoin_cons_of_ne_nil (sep a : List Char) (t : List (List Char)) (h : t ≠ []) :
    sepJoin sep (a :: t) = a ++ sep ++ sepJoin sep t := by
  cases t with
  | nil => exact absurd rfl h
  | cons b t => rfl

theorem joinNl_double_cons (a : List Char) (t : List (List Char)) :
    joinNl (a :: [] :: t) = a ++ '\n' :: joinNl ([] :: t) := by
  unfold joinNl
  rw [sepJoin_cons_of_ne_nil _ _ _ (by simp)]
  simp

theorem joinNl_ends_with_marker (init : List (List Char)) :
    ∃ front, joinNl (init ++ [endMarker, []]) = front ++ endMarker ++ ['\n'] := by
  induction init with
  | nil =>
      refine ⟨[], ?_⟩
      unfold joinNl
      rw [List.nil_append, sepJoin_cons_of_ne_nil _ _ _ (by simp)]
      simp [sepJoin]
  | cons a init ih =>
      obtain ⟨front, hf⟩ := ih
      refine ⟨a ++ '\n' :: front, ?_⟩
      unfold joinNl at hf ⊢
      rw [List.cons_append, sepJoin_cons_of_ne_nil _ _ _ (by simp), hf]
      simp

theorem render_block_text_shape (gaugeIds : List Int) (lookup : Int → Option (List Char))
    (pfx : List Char) :
    (∃ rest, render_block_text gaugeIds lookup pfx = startMarker ++ '\n' :: rest) ∧
    (∃ front, render_block_text gaugeIds lookup pfx = front ++ endMarker ++ ['\n']) := by
  have hrender : ∃ mid, render_block_text gaugeIds lookup pfx
      = joinNl ([startMarker, []] ++ mid ++ [endMarker, []]) := ⟨_, rfl⟩
  obtain ⟨mid, hm⟩ := hrender
  constructor
  · refine ⟨joinNl ([] :: (mid ++ [endMarker, []])), ?_⟩
    rw [hm]
    have hsplit : [startMarker, []] ++ mid ++ [endMarker, []]
        = startMarker :: [] :: (mid ++ [endMarker, []]) := by simp
    rw [hsplit, joinNl_double_cons]
  · rw [hm]
    have hsplit : [startMarker, []] ++ mid ++ [endMarker, []]
        = (startMarker :: [] :: mid) ++ [endMarker, []] := by simp
    rw [hsplit]
    exact joinNl_ends_with_marker (startMarker :: [] :: mid)

/-- C10: the rendered topology block always begins with the literal start
marker on its own line and ends with the literal end marker followed by a
trailing newline, for every gauge-id list and lookup (empty ones
included); consequently rewriting a well-formed template (one whose
start marker is followed by an end marker) leaves a template that still
contains both delimiter markers, so the block stays rewritable. -/
theorem c10_rendered_block_keeps_markers (gaugeIds : List Int)
    (lookup : Int → Option (List Char)) (pfx : List Char) (template : List Char) :
    (∃ rest, render_block_text gaugeIds lookup pfx = startMarker ++ '\n' :: rest) ∧
    (∃ front, render_block_text gaugeIds lookup pfx = front ++ endMarker ++ ['\n']) ∧
    (∀ i j : Nat, findSub startMarker template = some i →
      findSub endMarker (template.drop (i + startMarker.length)) = some j →
      ∃ updated,
        update_template_block template (render_block_text gaugeIds lookup pfx)
          = .ok updated ∧
        hasSub startMarker updated = true ∧ hasSub endMarker updated = true) := by
  refine ⟨(render_block_text_shape gaugeIds lookup pfx).1,
          (render_block_text_shape gaugeIds lookup pfx).2, ?_⟩
  intro i j hi hj
  have hh : hasSub startMarker template = true := by unfold hasSub; rw [hi]; rfl
  refine ⟨template.take i ++ render_block_text gaugeIds lookup pfx
      ++ template.drop (i + startMarker.length + j + endMarker.length), ?_, ?_, ?_⟩
  · unfold update_template_block
    rw [hh]
    simp only [if_true]
    rw [gaugeBlockSub_found _ _ i j hi hj]
  · obtain ⟨rest, hr⟩ := (render_block_text_shape gaugeIds lookup pfx).1
    rw [hr]
    have hassoc : template.take i ++ (startMarker ++ '\n' :: rest)
          ++ template.drop (i + startMarker.length + j + endMarker.length)
        = template.take i ++ startMarker
          ++ ('\n' :: rest
              ++ template.drop (i + startMarker.length + j + endMarker.length)) := by
      simp [List.append_assoc]
    rw [hassoc]
    exact hasSub_decomp _ _ _
  · obtain ⟨front, hf⟩ := (render_block_text_shape gaugeIds lookup pfx).2
    rw [hf]
    have hassoc : template.take i ++ (front ++ endMarker ++ ['\n'])
          ++ template.drop (i + startMarker.length + j + endMarker.length)
        = (template.take i ++ front) ++ endMarker
          ++ ('\n' :: template.drop (i + startMarker.length + j + endMarker.length)) := by
      simp [List.append_assoc]
    rw [hassoc]
    exact hasSub_decomp _ _ _

/-- Witness for C10 at a concrete well-formed template and an empty gauge
selection: the rewrite succeeds and both markers survive it. -/
theorem c10_rendered_block_keeps_markers_witness :
    ∃ updated,
      update_template_block
        "#---Start Gauge-Basin Block\nX\n#---End Gauge-Basin Block\ntail".data
        (render_block_text [] (fun _ => none) "HighResGauge".data)
        = .ok updated ∧
      hasSub startMarker updated = true ∧ hasSub endMarker updated = true := by
  apply (c10_rendered_block_keeps_markers [] (fun _ => none) "HighResGauge".data
    "#---Start Gauge-Basin Block\nX\n#---End Gauge-Basin Block\ntail".data).2.2 0 3
  · decide
  · decide

set_option maxRecDepth 40000 in
/-- C5 (code bug, concrete evaluation): request gauges `[1, 2]` with a
lookup that only knows gauge `2`.  One gauge line survives (`N = 1`), yet
the rendered block tags it `[Gauge 1]` — the `enumerate` index over the
full requested list — and not `[Gauge 0]`, while the basin membership
line the block itself emits references `gauge=0`.  The survivors are
therefore not re-indexed to a contiguous `0..N-1` sequence, and the
block's own basin line dangles. -/
theorem c5_missing_gauge_breaks_reindex :
    hasSub "[Gauge 1]".data
      (render_block_text [1, 2]
        (fun gid => if gid = 2 then some "[Gauge 2] basin=outlet".data else none)
        "HG".data) = true ∧
    hasSub "[Gauge 0]".data
      (render_block_text [1, 2]
        (fun gid => if gid = 2 then some "[Gauge 2] basin=outlet".data else none)
        "HG".data) = false ∧
    hasSub "gauge=0".data
      (render_block_text [1, 2]
        (fun gid => if gid = 2 then some "[Gauge 2] basin=outlet".data else none)
        "HG".data) = true := by
  refine ⟨by decide, by decide, by decide⟩

theorem snd_mem_of_mem_enumFrom {α : Type} (l : List α) (n : Nat) (p : Nat × α)
    (h : p ∈ l.enumFrom n) : p.2 ∈ l := by
  induction l generalizing n with
  | nil => cases h
  | cons a l ih =>
      rcases List.mem_cons.mp h with h | h
      · rw [h]
        exact List.mem_cons_self _ _
      · exact List.mem_cons_of_mem _ (ih (n + 1) h)

/-- C9: a band cell qualifies iff it is unmasked, holds a finite value,
and that value is at or above the threshold (`>=`, so a cell exactly at
the threshold qualifies); a no-data cell never qualifies regardless of
its stored value; and when no cell qualifies, `extract_hot_gauges`
returns the empty selection for every mask raster — the rerun is skipped,
not an error. -/
theorem c9_threshold_and_empty_selection (threshold : ℚ) :
    (∀ c : RasterCell, cellQualifies threshold c = true ↔
      (c.masked = false ∧ ∃ v, c.finiteVal = some v ∧ threshold ≤ v)) ∧
    (∀ c : RasterCell, c.masked = true → cellQualifies threshold c = false) ∧
    (∀ band : List RasterCell, (∀ c ∈ band, cellQualifies threshold c = false) →
      ∀ mask : Nat → List ℚ, extract_hot_gauges band mask threshold = []) := by
  refine ⟨?_, ?_, ?_⟩
  · intro c
    cases c with
    | mk m v =>
        cases m with
        | false =>
            cases v with
            | none => simp [cellQualifies, cellFilled]
            | some x => simp [cellQualifies, cellFilled]
        | true => simp [cellQualifies, cellFilled]
  · intro c h
    simp [cellQualifies, h]
  · intro band hall mask
    have hfilter : band.enum.filter (fun p => cellQualifies threshold p.2) = [] := by
      rw [List.filter_eq_nil_iff]
      intro p hp
      have hq := hall p.2 (snd_mem_of_mem_enumFrom band 0 p hp)
      simp [hq]
    simp [extract_hot_gauges, hfilter]

/-- Witness for C9 at a concrete input: a single masked cell whose stored
value is far above the threshold still yields the empty selection. -/
theorem c9_threshold_and_empty_selection_witness :
    extract_hot_gauges [⟨true, some 100⟩] (fun _ => [5]) 1 = [] := by
  apply (c9_threshold_and_empty_selection 1).2.2
  decide

theorem consolidatedStep_flatten (fs : CsvStore) (daPathMap : String → String)
    (s e : PDateTime) (acc : List (List (String × Int × Int))) (rid : String) :
    (consolidatedStep fs daPathMap s e acc rid).flatten
      = acc.flatten ++ selectedRowsSpec fs daPathMap s e rid := by
  unfold consolidatedStep selectedRowsSpec
  cases hf : fs (daPathMap rid) with
  | none => simp [hf]
  | some f =>
      cases hp : parseChain f with
      | none => simp [hf, hp]
      | some rows => simp [hf, hp, rowsInWindow, Bool.decide_and]

theorem foldl_consolidatedStep (fs : CsvStore) (daPathMap : String → String)
    (s e : PDateTime) (rs : List String) :
    ∀ acc : List (List (String × Int × Int)),
      (rs.foldl (consolidatedStep fs daPathMap s e) acc).flatten
        = acc.flatten ++ rs.flatMap (selectedRowsSpec fs daPathMap s e) := by
  induction rs with
  | nil => intro acc; simp
  | cons rid rs ih =>
      intro acc
      rw [List.foldl_cons, ih, consolidatedStep_flatten]
      simp

/-- C4: the consolidated table is exactly the reservoir-input-order
concatenation of each reservoir's selected series filtered to
`[start, end]` inclusive (both endpoints kept) with each row tagged by
its reservoir id and kept in source order; a reservoir whose selected
file is missing or unparsable, or has no rows in the window, contributes
zero rows and is not an error. -/
theorem c4_consolidated_rows (fs : CsvStore) (reservoirs : List String)
    (daPathMap : String → String) (s e : PDateTime) :
    create_consolidated_da_csv fs reservoirs daPathMap s e
      = reservoirs.flatMap (selectedRowsSpec fs daPathMap s e) := by
  unfold create_consolidated_da_csv
  have h := foldl_consolidatedStep fs daPathMap s e reservoirs []
  simpa using h

theorem prepare_da_paths_eq_map (fs : CsvStore) (reservoirs : List String)
    (dm dc : String) (s e : PDateTime) :
    prepare_da_paths fs reservoirs dm dc s e
      = reservoirs.map (fun r =>
          (r, if (check_manual_da_availability fs r dm s e).1
              then daFilePath dm r else daFilePath dc r)) := by
  unfold prepare_da_paths
  suffices h : ∀ acc : List (String × String),
      reservoirs.foldl
        (fun acc rid =>
          if (check_manual_da_availability fs rid dm s e).1 then
            acc ++ [(rid, daFilePath dm rid)]
          else
            acc ++ [(rid, daFilePath dc rid)]) acc
      = acc ++ reservoirs.map (fun r =>
          (r, if (check_manual_da_availability fs r dm s e).1
              then daFilePath dm r else daFilePath dc r)) by
    simpa using h []
  induction reservoirs with
  | nil => intro acc; simp
  | cons rid rs ih =>
      intro acc
      rw [List.foldl_cons, List.map_cons, ih]
      cases hb : (check_manual_da_availability fs rid dm s e).1 with
      | true => simp [hb]
      | false => simp [hb]

/-- C3: per reservoir the manual source is selected iff the manual CSV
file exists, some attempt of the fixed parse fallback chain succeeds, and
the parsed series' min/max timestamps enclose the timezone-stripped
simulation window; in every other case the climatological path is
selected, each reservoir receiving exactly one path; in particular a
manual series covering `[start-10, end+10]` is never assigned the
climatological source. -/
theorem c3_manual_selection (fs : CsvStore) (reservoirs : List String)
    (rid dm dc : String) (s e : PDateTime) :
    ((check_manual_da_availability fs rid dm s e).1 = true ↔
      ∃ f rows dataStart dataEnd,
        fs (daFilePath dm rid) = some f ∧ parseChain f = some rows ∧
        (rows.map Prod.fst).min? = some dataStart ∧
        (rows.map Prod.fst).max? = some dataEnd ∧
        dataStart ≤ stripTz s ∧ stripTz e ≤ dataEnd) ∧
    (prepare_da_paths fs reservoirs dm dc s e
      = reservoirs.map (fun r =>
          (r, if (check_manual_da_availability fs r dm s e).1
              then daFilePath dm r else daFilePath dc r))) ∧
    (∀ f rows dataStart dataEnd,
        fs (daFilePath dm rid) = some f → parseChain f = some rows →
        (rows.map Prod.fst).min? = some dataStart →
        (rows.map Prod.fst).max? = some dataEnd →
        dataStart ≤ stripTz s - 10 → stripTz e + 10 ≤ dataEnd →
        (check_manual_da_availability fs rid dm s e).1 = true) := by
  refine ⟨?_, prepare_da_paths_eq_map fs reservoirs dm dc s e, ?_⟩
  · cases hf : fs (daFilePath dm rid) with
    | none => simp [check_manual_da_availability, hf]
    | some f =>
        cases hp : parseChain f with
        | none => simp [check_manual_da_availability, hf, hp]
        | some rows =>
            cases hmn : (rows.map Prod.fst).min? with
            | none => simp [check_manual_da_availability, hf, hp, hmn]
            | some dataStart =>
                cases hmx : (rows.map Prod.fst).max? with
                | none => simp [check_manual_da_availability, hf, hp, hmn, hmx]
                | some dataEnd =>
                    by_cases hc : dataStart ≤ stripTz s ∧ stripTz e ≤ dataEnd
                    · simp [check_manual_da_availability, hf, hp, hmn, hmx, hc.1, hc.2]
                    · simp only [check_manual_da_availability, hf, hp, hmn, hmx]
                      rw [if_neg hc]
                      constructor
                      · intro h
                        exact absurd h (by simp)
                      · rintro ⟨f', rows', mn, mx, hf', hp', hmn', hmx', h1, h2⟩
                        injection hf' with hf'
                        subst hf'
                        rw [hp] at hp'
                        injection hp' with hp'
                        subst hp'
                        rw [hmn] at hmn'
                        injection hmn' with hmn'
                        subst hmn'
                        rw [hmx] at hmx'
                        injection hmx' with hmx'
                        subst hmx'
                        exact absurd ⟨h1, h2⟩ hc
  · intro f rows dataStart dataEnd hf hp hmn hmx h1 h2
    have hcond : dataStart ≤ stripTz s ∧ stripTz e ≤ dataEnd := ⟨by omega, by omega⟩
    simp [check_manual_da_availability, hf, hp, hmn, hmx, hcond.1, hcond.2]

/-- Witness for C3 at a concrete input: a manual series spanning
`[0, 100]` around the window `[20, 80]` (so covering `[10, 90]` as well)
is selected as manual. -/
theorem c3_manual_selection_witness :
    (check_manual_da_availability
      (fun p => if p = "man/R1_Vertimiento_Serie.csv"
                then some ⟨some [(0, 5), (100, 6)], none, none⟩ else none)
      "R1" "man" ⟨20, none⟩ ⟨80, none⟩).1 = true := by
  apply (c3_manual_selection _ [] "R1" "man" "clim" ⟨20, none⟩ ⟨80, none⟩).2.2
    ⟨some [(0, 5), (100, 6)], none, none⟩ [(0, 5), (100, 6)] 0 100
  · rfl
  · rfl
  · rfl
  · rfl
  · decide
  · decide
